import Mathlib

/-!
Shallow embedding of the dlt Qdrant destination client
(`dlt/destinations/impl/qdrant/qdrant_client.py`) and of the pipeline helpers
(`dlt/pipeline/helpers.py`), together with theorems settling the specification
claims about them.

Destination payloads are modelled as ordered association lists of `Value`s; the
destination store is modelled explicitly (collection names plus point lists) and
the qdrant gateway calls (`scroll`, `count`, collection management) are embedded
as pure functions over those stores.
-/

namespace Dlt

/-- Payload values stored in destination records (model of the JSON scalars the
client writes). -/
inductive Value where
  | str (s : String)
  | int (n : Int)
  | bool (b : Bool)
  | null
  deriving DecidableEq, Repr

/-- Python `str()` rendering of a payload value, as used when joining identifier
column values into the text that is hashed for the deterministic point id. -/
def Value.pyStr : Value → String
  | .str s => s
  | .int n => toString n
  | .bool b => if b then "True" else "False"
  | .null => "None"

/-- A point stored in a destination collection: synthetic integer id plus payload. -/
structure PointRecord where
  id : Int
  payload : List (String × Value)
  deriving DecidableEq, Repr

/-- Lookup of a key in a payload (Python dict access; first binding wins). -/
def lookupKey (key : String) : List (String × Value) → Option Value
  | [] => none
  | (k, v) :: rest => if k = key then some v else lookupKey key rest

/-- Insertion into an id-ascending ordered list of points. -/
def insertById (p : PointRecord) : List PointRecord → List PointRecord
  | [] => [p]
  | q :: qs => if p.id ≤ q.id then p :: q :: qs else q :: insertById p qs

/-- Points of a collection enumerated in ascending id order, the order in which
qdrant scrolls them. -/
def sortById (ps : List PointRecord) : List PointRecord := ps.foldr insertById []

/-- Whether a point lies at or after the scroll cursor. -/
def matchesOffset (offset : Option Int) (p : PointRecord) : Bool :=
  match offset with
  | none => true
  | some o => decide (o ≤ p.id)

/-- Model of the qdrant `scroll` gateway call: points are enumerated in ascending
id order starting at `offset` (inclusive), those matching the filter are returned
up to `limit`, and the id of the next matching point is returned as the next page
offset (`none` when the scan is exhausted). -/
def scrollPage (points : List PointRecord) (filt : PointRecord → Bool)
    (offset : Option Int) (limit : Nat) : List PointRecord × Option Int :=
  let eligible := (sortById points).filter (fun p => filt p && matchesOffset offset p)
  (eligible.take limit, ((eligible.drop limit).head?).map PointRecord.id)

/-- Synthetic point id used by `QdrantClient._create_point_no_vector`:
`2**64 - int(precise_time() * 10**6)`, taking the current time as an integer count
of microseconds (Python integers are unbounded, so this is exact). -/
def pointIdOf (t_us : Int) : Int := 2 ^ 64 - t_us

/-- Ascending-by-id scan with limit 1 over (id, record) pairs: returns the pair
with the smallest id, i.e. the first record a qdrant scroll would yield. -/
def minByPointId : List (Int × String) → Option (Int × String)
  | [] => none
  | p :: ps =>
    match minByPointId ps with
    | none => some p
    | some q => if p.1 ≤ q.1 then some p else some q

/-- The text `"_".join(str(data[key]) for key in unique_identifiers)` computed by
`LoadQdrantJob._generate_uuid`. -/
def joinIdentifierValues (data : String → Value) (unique_identifiers : List String) : String :=
  String.intercalate "_" (unique_identifiers.map (fun k => (data k).pyStr))

/-- `LoadQdrantJob._generate_uuid`: the deterministic point id
`uuid5(NAMESPACE_DNS, collection_name + data_id)` where `data_id` joins the
stringified identifier-column values with an underscore.  The external
`uuid.uuid5(NAMESPACE_DNS, ·)` hash is an opaque pure function of the hashed
text and is passed in as `uuid5`. -/
def generate_uuid (uuid5 : String → String) (data : String → Value)
    (unique_identifiers : List String) (collection_name : String) : String :=
  uuid5 (collection_name ++ joinIdentifierValues data unique_identifiers)

/-- Column hints relevant to identifier selection. -/
structure Column where
  primary_key : Bool
  unique : Bool
  deriving DecidableEq, Repr

/-- A dlt table schema: write disposition plus named columns with hints. -/
structure TTableSchema where
  name : String
  write_disposition : Option String
  columns : List (String × Column)

/-- Modelled from the spec: `get_columns_names_with_prop`
(`dlt.common.schema.utils`, not part of the excerpt) returns the names of the
table's columns flagged with the given boolean property. -/
def columnsWithProp (t : TTableSchema) (sel : Column → Bool) : List String :=
  (t.columns.filter (fun kc => sel kc.2)).map (fun kc => kc.1)

/-- `LoadQdrantJob._list_unique_identifiers`: primary-key columns when the write
disposition is merge and primary keys exist, otherwise the columns flagged
unique. -/
def _list_unique_identifiers (t : TTableSchema) : List String :=
  if t.write_disposition = some "merge" then
    let primary_keys := columnsWithProp t (fun c => c.primary_key)
    if primary_keys.isEmpty then columnsWithProp t (fun c => c.unique) else primary_keys
  else columnsWithProp t (fun c => c.unique)

/-- Point id choice in `LoadQdrantJob.__init__`: the deterministic uuid5 when
identifier columns exist, otherwise the fresh random uuid4 drawn for this record
(supplied here as `freshUuid4`). -/
def pointIdFor (uuid5 : String → String) (freshUuid4 : String) (t : TTableSchema)
    (data : String → Value) (collection_name : String) : String :=
  if (_list_unique_identifiers t).isEmpty then freshUuid4
  else generate_uuid uuid5 data (_list_unique_identifiers t) collection_name

/-- Python exception model for the retry classifier: an exception optionally is a
`PipelineStepFailed` carrying a step name, may be a `TerminalException`, and
carries the implicit-chaining `__context__` exception. -/
inductive PyException where
  | mk (stepFailed : Option String) (terminal : Bool) (context : Option PyException)

/-- The step name when the exception is a `PipelineStepFailed`. -/
def PyException.stepFailed : PyException → Option String
  | .mk s _ _ => s

/-- Whether the exception is a `TerminalException`. -/
def PyException.terminal : PyException → Bool
  | .mk _ t _ => t

/-- The `__context__` attribute. -/
def PyException.context : PyException → Option PyException
  | .mk _ _ c => c

/-- `isinstance(ex, PipelineStepFailed) and ex.step not in retry_on_pipeline_steps`. -/
def stepFailedOutside (steps : List String) (ex : PyException) : Bool :=
  match ex.stepFailed with
  | some s => decide (s ∉ steps)
  | none => false

/-- `ex.__context__ is not None and isinstance(ex.__context__, TerminalException)`. -/
def contextTerminal (ex : PyException) : Bool :=
  match ex.context with
  | some c => c.terminal
  | none => false

/-- The predicate `_retry_load` returned by `retry_load`. -/
def retry_load (retry_on_pipeline_steps : List String) (ex : PyException) : Bool :=
  if stepFailedOutside retry_on_pipeline_steps ex then false
  else if ex.terminal || contextTerminal ex then false
  else true

/-- The two collections touched by `QdrantClient.get_stored_state`: the
pipeline-state collection and the loads collection. -/
structure StateStore where
  statePoints : List PointRecord
  loadPoints : List PointRecord
  deriving DecidableEq, Repr

/-- The `count` gateway call on the loads collection with an exact filter on
`load_id` (`exact=True`). -/
def countLoads (st : StateStore) (load_id : Value) : Nat :=
  (st.loadPoints.filter (fun p => decide (lookupKey "load_id" p.payload = some load_id))).length

/-- The scroll filter on the state collection: payload key `pipeline_name`
matches the requested pipeline. -/
def matchesPipeline (pipeline_name : String) (p : PointRecord) : Bool :=
  decide (lookupKey "pipeline_name" p.payload = some (.str pipeline_name))

/-- The inner `for state_record in state_records` loop of `get_stored_state`:
`some (some payload)` when a record's `load_id` passes the count check,
`some none` when a record lacks the `_dlt_load_id` key (the KeyError is swallowed
by `except Exception: return None`), and `none` when the page is exhausted
without a durable candidate, so the outer loop continues. -/
def scanStatePage (st : StateStore) : List PointRecord → Option (Option (List (String × Value)))
  | [] => none
  | r :: rs =>
    match lookupKey "_dlt_load_id" r.payload with
    | none => some none
    | some lid =>
      if 0 < countLoads st lid then some (some r.payload)
      else scanStatePage st rs

/-- The `while True` loop of `QdrantClient.get_stored_state`, with explicit fuel:
a result of `none` means the loop performed `fuel` iterations without returning
(the code itself has no exit besides the two `return` statements modelled in
`scanStatePage` and the empty-page check). -/
def getStoredStateLoop (st : StateStore) (pipeline_name : String) :
    Nat → Option Int → Option (Option (List (String × Value)))
  | 0, _ => none
  | fuel + 1, offset =>
    let page := scrollPage st.statePoints (matchesPipeline pipeline_name) offset 100
    if page.1.isEmpty then some none
    else
      match scanStatePage st page.1 with
      | some result => some result
      | none => getStoredStateLoop st pipeline_name fuel page.2

/-- `QdrantClient.get_stored_state` (scan starts with a `None` offset). -/
def get_stored_state (st : StateStore) (pipeline_name : String) (fuel : Nat) :
    Option (Option (List (String × Value))) :=
  getStoredStateLoop st pipeline_name fuel none

/-- Kinds of exception a gateway call can raise. -/
inductive GwError where
  | notFound
  | malformed
  | network
  | auth
  deriving DecidableEq, Repr

/-- Destination model for the schema-version and storage operations: the set of
existing collection names, the points of the version collection, and an optional
transport fault that makes every scroll call raise an exception of that kind. -/
structure QStore where
  collections : List String
  versionPoints : List PointRecord
  scrollError : Option GwError
  deriving DecidableEq, Repr

/-- The configuration fields used to name collections. -/
structure QdrantConfig where
  dataset_name : String
  dataset_separator : String
  deriving DecidableEq, Repr

/-- `QdrantClient._make_qualified_collection_name`: dataset name and table name
concatenated with the separator when a dataset name is present. -/
def make_qualified_collection_name (cfg : QdrantConfig) (table_name : String) : String :=
  if cfg.dataset_name = "" then table_name
  else cfg.dataset_name ++ cfg.dataset_separator ++ table_name

/-- `QdrantClient._collection_exists` on an already-qualified name (a 404 from
the gateway means `false`). -/
def collection_exists (st : QStore) (qualified_name : String) : Bool :=
  decide (qualified_name ∈ st.collections)

/-- `QdrantClient.get_stored_schema_by_hash`: scroll the version collection with
an exact `version_hash` filter, limit 1; the whole body is wrapped in
`except Exception: return None`, so any gateway exception — and the IndexError
of `response[0][0]` on an empty page — yields `none`. -/
def get_stored_schema_by_hash (st : QStore) (schema_hash : String) :
    Option (List (String × Value)) :=
  match st.scrollError with
  | some _ => none
  | none =>
    match (scrollPage st.versionPoints
        (fun p => decide (lookupKey "version_hash" p.payload = some (.str schema_hash)))
        none 1).1 with
    | [] => none
    | r :: _ => some r.payload

/-- `QdrantClient.get_stored_schema`: first version-collection record whose
`schema_name` matches, under the same broad exception handling. -/
def get_stored_schema (st : QStore) (schema_name : String) :
    Option (List (String × Value)) :=
  match st.scrollError with
  | some _ => none
  | none =>
    match (scrollPage st.versionPoints
        (fun p => decide (lookupKey "schema_name" p.payload = some (.str schema_name)))
        none 1).1 with
    | [] => none
    | r :: _ => some r.payload

/-- The schema object fields used by the synchronization path. -/
structure SchemaObj where
  name : String
  version : Int
  stored_version_hash : String
  tables : List String
  body : String
  deriving DecidableEq, Repr

/-- The payload written by `QdrantClient._update_schema_in_storage`: the
version-collection properties zipped with
`[schema.version, ENGINE_VERSION, now, schema.name, schema.stored_version_hash, schema_str]`. -/
def versionPayload (s : SchemaObj) (inserted_at : String) : List (String × Value) :=
  [("version", .int s.version), ("engine_version", .int 4),
   ("inserted_at", .str inserted_at), ("schema_name", .str s.name),
   ("version_hash", .str s.stored_version_hash), ("schema", .str s.body)]

/-- `QdrantClient._update_schema_in_storage`: one new version point written via
`_create_point_no_vector` at time `now_us`. -/
def update_schema_in_storage (s : SchemaObj) (inserted_at : String) (now_us : Int)
    (st : QStore) : QStore :=
  { st with versionPoints := st.versionPoints ++ [⟨pointIdOf now_us, versionPayload s inserted_at⟩] }

/-- The table loop of `QdrantClient._execute_schema_update`: create a collection
for each in-scope table whose qualified collection does not exist; returns the
updated store and the list of qualified names created, in order. -/
def createMissingCollections (cfg : QdrantConfig) :
    List String → QStore → QStore × List String
  | [], st => (st, [])
  | t :: ts, st =>
    let q := make_qualified_collection_name cfg t
    if collection_exists st q then createMissingCollections cfg ts st
    else
      let res := createMissingCollections cfg ts { st with collections := st.collections ++ [q] }
      (res.1, q :: res.2)

/-- `QdrantClient._execute_schema_update`: create the missing in-scope
collections (all schema tables when `only_tables` is not given), then append the
new schema-version record. -/
def execute_schema_update (s : SchemaObj) (cfg : QdrantConfig) (inserted_at : String)
    (now_us : Int) (st : QStore) (only_tables : Option (List String)) :
    QStore × List String :=
  let res := createMissingCollections cfg (only_tables.getD s.tables) st
  (update_schema_in_storage s inserted_at now_us res.1, res.2)

/-- `QdrantClient.update_stored_schema`: look up a stored version record by the
current schema's `stored_version_hash`; no-op when found, otherwise run the
schema update.  The second component of the result is the list of collections
created. -/
def update_stored_schema (s : SchemaObj) (cfg : QdrantConfig) (inserted_at : String)
    (now_us : Int) (st : QStore) (only_tables : Option (List String)) :
    QStore × List String :=
  match get_stored_schema_by_hash st s.stored_version_hash with
  | some _ => (st, [])
  | none => execute_schema_update s cfg inserted_at now_us st only_tables

/-- Destination-side effects issued by `initialize_storage`. -/
inductive StorageEffect where
  | createCollection (name : String)
  | deleteCollection (name : String)
  deriving DecidableEq, Repr

/-- `QdrantClient.sentinel_collection`: the dataset name, or the fixed fallback
when no dataset name is configured. -/
def sentinel_collection (cfg : QdrantConfig) : String :=
  if cfg.dataset_name = "" then "DltSentinelCollection" else cfg.dataset_name

/-- `QdrantClient.is_storage_initialized`: the sentinel collection exists
(checked unqualified). -/
def is_storage_initialized (cfg : QdrantConfig) (st : QStore) : Bool :=
  decide (sentinel_collection cfg ∈ st.collections)

/-- The `for table_name in truncate_tables` loop of `initialize_storage`.  The
loop passes the already-qualified name to `_collection_exists`, whose
`qualify_table_name` parameter defaults to `True`, so the existence check is
performed on the DOUBLY-qualified name `_make_qualified_collection_name
(_make_qualified_collection_name table_name)`: a table is skipped (`continue`)
only when that doubly-qualified collection exists; otherwise the qualified
collection is deleted and then created, even when it exists. -/
def truncateLoop (cfg : QdrantConfig) : List String → QStore → QStore × List StorageEffect
  | [], st => (st, [])
  | t :: ts, st =>
    let q := make_qualified_collection_name cfg t
    if collection_exists st (make_qualified_collection_name cfg q) then truncateLoop cfg ts st
    else
      let st1 : QStore := { st with collections := st.collections.erase q ++ [q] }
      let res := truncateLoop cfg ts st1
      (res.1, StorageEffect.deleteCollection q :: StorageEffect.createCollection q :: res.2)

/-- `QdrantClient.initialize_storage` (named `init_storage` here): create the
sentinel collection when storage is uninitialized, otherwise run the truncate
loop when `truncate_tables` is non-empty. -/
def init_storage (cfg : QdrantConfig) (st : QStore) (truncate_tables : List String) :
    QStore × List StorageEffect :=
  if !is_storage_initialized cfg st then
    ({ st with collections := st.collections ++ [sentinel_collection cfg] },
     [StorageEffect.createCollection (sentinel_collection cfg)])
  else if truncate_tables.isEmpty then (st, [])
  else truncateLoop cfg truncate_tables st

/-- A pipeline schema as seen by the drop command: name, version and table names. -/
structure PSchema where
  name : String
  version : Nat
  tables : List String
  deriving DecidableEq, Repr

/-- The pieces of pipeline state the drop command inspects: the resource names
that have stored resource state, and the JSON paths present in the source
state. -/
structure PipelineState where
  resource_states : List String
  state_paths : List String
  deriving DecidableEq, Repr

/-- The info summary of a drop plan (`tables`, `state_paths`, `resource_states`
entries that would be dropped). -/
structure DropInfo where
  tables : List String
  state_paths : List String
  resource_states : List String
  deriving DecidableEq, Repr

/-- The result of planning a drop (schema with target tables removed, state with
target entries removed, info summary, dropped table names). -/
structure DropResult where
  schema : PSchema
  state : PipelineState
  info : DropInfo
  dropped_tables : List String
  deriving DecidableEq, Repr

/-- Modelled from the spec: `drop_resources` (`dlt.pipeline.drop`, not part of
the excerpt) — the pure planning phase deriving the DropPlan: schema with target
tables removed, state with target resource-state entries and JSON paths removed,
the list of dropped table names, and the info summary used to detect a no-op
plan; `drop_all` supersedes the resource list and `state_only` skips table
drops entirely. -/
def drop_resources (schema : PSchema) (state : PipelineState)
    (resources state_paths : List String) (drop_all state_only : Bool) : DropResult :=
  let targetTables := if drop_all then schema.tables
    else schema.tables.filter (fun t => t ∈ resources)
  let droppedTables := if state_only then [] else targetTables
  let droppedResourceStates := if drop_all then state.resource_states
    else state.resource_states.filter (fun r => r ∈ resources)
  let droppedPaths := state.state_paths.filter (fun sp => sp ∈ state_paths)
  { schema := { schema with tables := schema.tables.filter (fun t => t ∉ droppedTables) }
    state := { resource_states := state.resource_states.filter (fun r => r ∉ droppedResourceStates)
               state_paths := state.state_paths.filter (fun sp => sp ∉ droppedPaths) }
    info := { tables := droppedTables
              state_paths := droppedPaths
              resource_states := droppedResourceStates }
    dropped_tables := droppedTables }

/-- The pipeline fields the drop command reads and writes.  Pending load
packages are modelled explicitly; per the spec the new schema and state are
persisted as a pending load package
(spec §4.4: "persist the new schema+state as a pending load package"). -/
structure Pipeline where
  default_schema_name : Option String
  schemas : List (String × PSchema)
  state : PipelineState
  pending_packages : List (PipelineState × PSchema)
  state_extract_forced : Bool
  deriving DecidableEq, Repr

/-- `Pipeline.has_pending_data`: there are pending extracted/normalized load
packages. -/
def Pipeline.has_pending_data (p : Pipeline) : Bool := !p.pending_packages.isEmpty

/-- Lookup of a schema in the pipeline's schema storage. -/
def lookupSchema : List (String × PSchema) → String → Option PSchema
  | [], _ => none
  | (k, s) :: rest, key => if k = key then some s else lookupSchema rest key

/-- `pipeline.schemas.save_schema`: replace the stored schema under the schema's
own name. -/
def saveSchemaTo (schemas : List (String × PSchema)) (s : PSchema) :
    List (String × PSchema) :=
  schemas.map (fun kv => if kv.1 = s.name then (s.name, s) else kv)

/-- The fields computed by `DropCommand.__init__`. -/
structure DropCommand where
  schema : PSchema
  _new_state : PipelineState
  info : DropInfo
  _new_schema : PSchema
  _dropped_tables : List String
  drop_tables : Bool
  drop_state : Bool
  deriving DecidableEq, Repr

/-- `DropCommand.__init__`: clone the selected schema (the default one when no
name is given), plan the drop with `drop_resources`, and derive the
`drop_tables` / `drop_state` flags; `none` models the `PipelineNeverRan` error
(no default schema) or a missing schema. -/
def mkDropCommand (p : Pipeline) (resources : List String) (schema_name : Option String)
    (state_paths : List String) (drop_all state_only : Bool) : Option DropCommand :=
  match p.default_schema_name with
  | none => none
  | some dflt =>
    match lookupSchema p.schemas (schema_name.getD dflt) with
    | none => none
    | some schema0 =>
      let dr := drop_resources schema0 p.state resources state_paths drop_all state_only
      some { schema := schema0
             _new_state := dr.state
             info := dr.info
             _new_schema := dr.schema
             _dropped_tables := dr.dropped_tables
             drop_tables := !state_only && !dr.dropped_tables.isEmpty
             drop_state := drop_all || !resources.isEmpty || !state_paths.isEmpty }

/-- `DropCommand.is_empty`. -/
def DropCommand.is_empty (c : DropCommand) : Bool :=
  c.info.tables.isEmpty && c.info.state_paths.isEmpty && c.info.resource_states.isEmpty

/-- The observable steps `DropCommand.__call__` performs, in order. -/
inductive CallEffect where
  | syncDestination
  | saveAndExtractStateAndSchema
  | normalize
  | load
  | dropPendingPackages
  | forceStateExtract
  | saveSchema (s : PSchema)
  deriving DecidableEq, Repr

/-- Effects that interact with the destination (the local package/schema/state
operations do not). -/
def CallEffect.touchesDestination : CallEffect → Bool
  | .syncDestination => true
  | .load => true
  | _ => false

/-- Errors `DropCommand.__call__` raises. -/
inductive CallError where
  | pendingData
  | loadFailed (e : Nat)
  deriving DecidableEq, Repr

/-- `DropCommand.__call__`.  `loadErr` is the outcome of the
`pipeline.load(raise_on_failed_jobs=True)` run (`some e` = the load raised `e`).
Returns the call outcome, the pipeline after the call, and the ordered list of
steps performed.  On a load failure the command drops the pending packages,
forces a fresh state-extraction marker, restores the pre-drop schema saved at
construction time, and re-raises. -/
def dropCommandCall (cmd : DropCommand) (p : Pipeline) (loadErr : Option Nat) :
    Except CallError Unit × Pipeline × List CallEffect :=
  if p.has_pending_data then (.error .pendingData, p, [])
  else
    if !cmd.drop_state && !cmd.drop_tables then
      (.ok (), p, [CallEffect.syncDestination])
    else
      let schema1 := { cmd._new_schema with version := cmd._new_schema.version + 1 }
      let p1 : Pipeline :=
        { p with pending_packages := p.pending_packages ++ [(cmd._new_state, schema1)]
                 schemas := saveSchemaTo p.schemas schema1 }
      let fx1 := [CallEffect.syncDestination, CallEffect.saveAndExtractStateAndSchema,
                  CallEffect.normalize, CallEffect.load]
      match loadErr with
      | none => (.ok (), p1, fx1)
      | some e =>
        let p2 : Pipeline :=
          { p1 with pending_packages := []
                    state_extract_forced := true
                    schemas := saveSchemaTo p1.schemas cmd.schema }
        (.error (.loadFailed e), p2,
         fx1 ++ [CallEffect.dropPendingPackages, CallEffect.forceStateExtract,
                 CallEffect.saveSchema cmd.schema])

/-- A state store with one state record for pipeline `p` whose `load_id` has no
record in the loads collection (an in-flight, non-durable state). -/
def stateStoreDiverge : StateStore :=
  { statePoints := [⟨pointIdOf 5,
      [("pipeline_name", .str "p"), ("_dlt_load_id", .str "L"), ("state", .str "blob")]⟩]
    loadPoints := [] }

/-- A durable state payload: its `_dlt_load_id` has a completed load record in
`stateStoreDurable`. -/
def durableStatePayload : List (String × Value) :=
  [("pipeline_name", .str "p"), ("_dlt_load_id", .str "L1"), ("state", .str "blob")]

/-- A state store where the single state record for pipeline `p` is durable. -/
def stateStoreDurable : StateStore :=
  { statePoints := [⟨pointIdOf 5, durableStatePayload⟩]
    loadPoints := [⟨pointIdOf 6, [("load_id", .str "L1"), ("status", .int 0)]⟩] }

/-- A schema whose stored version hash is `hash1`. -/
def schemaEx : SchemaObj :=
  { name := "s", version := 3, stored_version_hash := "hash1", tables := ["users"], body := "body" }

/-- A configuration with dataset name `ds` and separator `_`. -/
def cfgEx : QdrantConfig := { dataset_name := "ds", dataset_separator := "_" }

/-- A healthy store already holding a version record with hash `hash1`. -/
def storeWithHash : QStore :=
  { collections := ["ds_users"]
    versionPoints := [⟨pointIdOf 1, versionPayload schemaEx "t0"⟩]
    scrollError := none }

/-- A store whose gateway raises a network error on scroll, although a matching
version record exists. -/
def storeNetworkFault : QStore :=
  { collections := []
    versionPoints := [⟨pointIdOf 1, [("version_hash", .str "h")]⟩]
    scrollError := some .network }

/-- A store whose gateway raises an authentication error on scroll. -/
def storeAuthFault : QStore :=
  { collections := [], versionPoints := [], scrollError := some .auth }

/-- An initialized store (sentinel `ds` exists) holding the `ds_users`
collection but not `ds_orders`. -/
def storeInit : QStore :=
  { collections := ["ds", "ds_users"], versionPoints := [], scrollError := none }

/-- A pipeline with one schema `s` over table `users`, some state, and no
pending packages. -/
def pipelineEx : Pipeline :=
  { default_schema_name := some "s"
    schemas := [("s", ⟨"s", 1, ["users"]⟩)]
    state := { resource_states := ["users"], state_paths := ["p1"] }
    pending_packages := []
    state_extract_forced := false }

/-- The drop command `DropCommand.__init__` builds on `pipelineEx` with empty
resources, empty state paths, `drop_all=false`, `state_only=false`. -/
def emptyDropCmd : DropCommand :=
  { schema := ⟨"s", 1, ["users"]⟩
    _new_state := { resource_states := ["users"], state_paths := ["p1"] }
    info := { tables := [], state_paths := [], resource_states := [] }
    _new_schema := ⟨"s", 1, ["users"]⟩
    _dropped_tables := []
    drop_tables := false
    drop_state := false }

/-- A pipeline with tables `users` and `orders` and some stored state. -/
def pipelineW : Pipeline :=
  { default_schema_name := some "s"
    schemas := [("s", ⟨"s", 1, ["users", "orders"]⟩)]
    state := { resource_states := ["users"], state_paths := ["pth"] }
    pending_packages := []
    state_extract_forced := false }

/-- The drop command built on `pipelineW` for `resources=["users"]`. -/
def dropCmdW : DropCommand :=
  { schema := ⟨"s", 1, ["users", "orders"]⟩
    _new_state := { resource_states := [], state_paths := ["pth"] }
    info := { tables := ["users"], state_paths := [], resource_states := ["users"] }
    _new_schema := ⟨"s", 1, ["orders"]⟩
    _dropped_tables := ["users"]
    drop_tables := true
    drop_state := true }

/-- A concrete stand-in for the external uuid5 hash, used in witnesses. -/
def hashEx : String → String := fun s => "uuid-of-" ++ s

/-- Record data `id=1, name="a"`. -/
def dataA : String → Value := fun k => if k = "id" then .int 1 else .str "a"

/-- Record data `id=1, name="b"`: same identifier column value, different
payload elsewhere. -/
def dataB : String → Value := fun k => if k = "id" then .int 1 else .str "b"

theorem retry_load_eq_not_or (steps : List String) (ex : PyException) :
    retry_load steps ex = (!(stepFailedOutside steps ex || ex.terminal || contextTerminal ex)) := by
  unfold retry_load
  cases hs : stepFailedOutside steps ex <;> cases ht : ex.terminal <;>
    cases hc : contextTerminal ex <;> simp [hs, ht, hc]

/-- C7: the predicate returned by `retry_load` returns false exactly when the
exception is a `PipelineStepFailed` whose step is outside the allow-list, or the
exception is a terminal exception, or its direct `__context__` cause is one; in
particular a `normalize`-step failure under the default allow-list `("load",)`
yields false regardless of the underlying error kind, and every other exception
yields true. -/
theorem retry_load_spec :
    ∀ (steps : List String) (ex : PyException),
    (retry_load steps ex = false ↔
      (∃ s, ex.stepFailed = some s ∧ s ∉ steps)
      ∨ ex.terminal = true
      ∨ (∃ c, ex.context = some c ∧ c.terminal = true))
    ∧ ∀ (t : Bool) (c : Option PyException),
        retry_load ["load"] (.mk (some "normalize") t c) = false := by
  intro steps ex
  constructor
  · rw [retry_load_eq_not_or]
    cases ex with
    | mk sf tm cx =>
      cases sf <;> cases tm <;> cases cx <;>
        simp [stepFailedOutside, contextTerminal, PyException.stepFailed,
          PyException.terminal, PyException.context]
      all_goals tauto
  · intro t c
    rfl

/-- C4: identifier-column choice of the load job — primary-key columns when the
write disposition is merge and primary keys exist, otherwise the columns flagged
unique; and when the resulting identifier list is empty the record's point id is
the fresh random uuid4 instead of the deterministic uuid5. -/
theorem identifier_columns_spec :
    ∀ (t : TTableSchema) (u5 : String → String) (freshUuid4 : String)
      (data : String → Value) (coll : String),
    _list_unique_identifiers t =
      (if t.write_disposition = some "merge" ∧ columnsWithProp t (fun c => c.primary_key) ≠ []
       then columnsWithProp t (fun c => c.primary_key)
       else columnsWithProp t (fun c => c.unique))
    ∧ pointIdFor u5 freshUuid4 t data coll =
      (if _list_unique_identifiers t = [] then freshUuid4
       else generate_uuid u5 data (_list_unique_identifiers t) coll) := by
  intro t u5 freshUuid4 data coll
  constructor
  · unfold _list_unique_identifiers
    by_cases hw : t.write_disposition = some "merge"
    · by_cases hp : columnsWithProp t (fun c => c.primary_key) = []
      · simp [hw, hp]
      · simp [hw, hp, List.isEmpty_iff]
    · simp [hw]
  · unfold pointIdFor
    by_cases h : _list_unique_identifiers t = []
    · simp [h]
    · simp [h, List.isEmpty_iff]

/-- C5: the deterministic point id is the uuid5 hash of the collection name
concatenated with the underscore-join of the stringified identifier-column
values; it is a pure function of the identifier-column values and the collection
name, so two records agreeing on the identifier columns get the same id. -/
theorem generate_uuid_deterministic :
    ∀ (u5 : String → String) (data1 data2 : String → Value) (ids : List String) (coll : String),
    (∀ k ∈ ids, data1 k = data2 k) →
    generate_uuid u5 data1 ids coll = generate_uuid u5 data2 ids coll
    ∧ generate_uuid u5 data1 ids coll
      = u5 (coll ++ String.intercalate "_" (ids.map (fun k => (data1 k).pyStr))) := by
  intro u5 d1 d2 ids coll h
  refine ⟨?_, rfl⟩
  unfold generate_uuid joinIdentifierValues
  have hmap : ids.map (fun k => (d1 k).pyStr) = ids.map (fun k => (d2 k).pyStr) :=
    List.map_congr_left (fun k hk => by rw [h k hk])
  rw [hmap]

/-- Witness for C5 at concrete inputs: two records with `id=1` but different
other fields hash to the same point id in collection `users`. -/
theorem generate_uuid_witness :
    generate_uuid hashEx dataA ["id"] "users" = generate_uuid hashEx dataB ["id"] "users"
    ∧ generate_uuid hashEx dataA ["id"] "users"
      = hashEx ("users" ++ String.intercalate "_" (["id"].map (fun k => (dataA k).pyStr))) :=
  generate_uuid_deterministic hashEx dataA dataB ["id"] "users" (by decide)

/-- C9: the synthetic point id `2^64 - t` is strictly decreasing in the insertion
time `t` (microseconds), so of any two insertions the later one has the smaller
id and an ascending-by-id scan with limit 1 returns it first. -/
theorem decreasing_point_ids :
    ∀ (t1 t2 : Int), t1 < t2 →
    pointIdOf t2 < pointIdOf t1
    ∧ ∀ (a b : String),
        minByPointId [(pointIdOf t1, a), (pointIdOf t2, b)] = some (pointIdOf t2, b) := by
  intro t1 t2 h
  have hlt : pointIdOf t2 < pointIdOf t1 := by unfold pointIdOf; omega
  refine ⟨hlt, ?_⟩
  intro a b
  simp only [minByPointId]
  rw [if_neg (not_le.mpr hlt)]

/-- Witness for C9 at concrete times 0 and 1 microseconds. -/
theorem decreasing_point_ids_witness :
    pointIdOf 1 < pointIdOf 0
    ∧ minByPointId [(pointIdOf 0, "older"), (pointIdOf 1, "newer")]
      = some (pointIdOf 1, "newer") :=
  ⟨(decreasing_point_ids 0 1 (by decide)).1,
   (decreasing_point_ids 0 1 (by decide)).2 "older" "newer"⟩

theorem scanStatePage_durable (st : StateStore) :
    ∀ (page : List PointRecord) (payload : List (String × Value)),
    scanStatePage st page = some (some payload) →
    ∃ lid, lookupKey "_dlt_load_id" payload = some lid ∧ 0 < countLoads st lid := by
  intro page
  induction page with
  | nil => intro payload h; simp [scanStatePage] at h
  | cons r rs ih =>
    intro payload h
    unfold scanStatePage at h
    cases hl : lookupKey "_dlt_load_id" r.payload with
    | none => rw [hl] at h; simp at h
    | some lid =>
      rw [hl] at h
      dsimp only [] at h
      by_cases hc : 0 < countLoads st lid
      · rw [if_pos hc] at h
        have hp : r.payload = payload := by
          have := Option.some.inj h
          exact Option.some.inj this
        exact ⟨lid, hp ▸ hl, hc⟩
      · rw [if_neg hc] at h
        exact ih payload h

theorem getStoredStateLoop_durable (st : StateStore) (pn : String) :
    ∀ (fuel : Nat) (offset : Option Int) (payload : List (String × Value)),
    getStoredStateLoop st pn fuel offset = some (some payload) →
    ∃ lid, lookupKey "_dlt_load_id" payload = some lid ∧ 0 < countLoads st lid := by
  intro fuel
  induction fuel with
  | zero => intro offset payload h; simp [getStoredStateLoop] at h
  | succ n ih =>
    intro offset payload h
    unfold getStoredStateLoop at h
    by_cases he : (scrollPage st.statePoints (matchesPipeline pn) offset 100).1.isEmpty
    · rw [if_pos he] at h; simp at h
    · rw [if_neg he] at h
      cases hs : scanStatePage st (scrollPage st.statePoints (matchesPipeline pn) offset 100).1 with
      | none =>
        rw [hs] at h
        exact ih _ payload h
      | some result =>
        rw [hs] at h
        have : result = some payload := Option.some.inj h
        exact scanStatePage_durable st _ payload (this ▸ hs)

/-- C1: `get_stored_state` never returns a state whose `load_id` lacks a load
record with positive count (no dirty read of in-flight state); but on a store
holding a matching non-durable state record the scan never returns at all — the
scroll offset resets to `None` at the end of the filtered scan and the loop
rescans forever, instead of returning `None` as the claim states. -/
theorem get_stored_state_no_dirty_read_but_diverges :
    (∀ (st : StateStore) (pn : String) (fuel : Nat) (payload : List (String × Value)),
      get_stored_state st pn fuel = some (some payload) →
      ∃ lid, lookupKey "_dlt_load_id" payload = some lid ∧ 0 < countLoads st lid)
    ∧ ∀ fuel : Nat, get_stored_state stateStoreDiverge "p" fuel = none := by
  constructor
  · intro st pn fuel payload h
    exact getStoredStateLoop_durable st pn fuel none payload h
  · intro fuel
    induction fuel with
    | zero => rfl
    | succ n ih =>
      have hstep : getStoredStateLoop stateStoreDiverge "p" (n + 1) none
          = getStoredStateLoop stateStoreDiverge "p" n none := rfl
      exact hstep.trans ih

/-- Witness for C1's no-dirty-read conjunct: on `stateStoreDurable` the returned
payload's load id has a positive count in the loads collection. -/
theorem get_stored_state_durable_witness :
    ∃ lid, lookupKey "_dlt_load_id" durableStatePayload = some lid
      ∧ 0 < countLoads stateStoreDurable lid :=
  get_stored_state_no_dirty_read_but_diverges.1 stateStoreDurable "p" 1 durableStatePayload
    (by decide)

/-- C6 (amended): every gateway failure during the schema lookup — not only
table-not-found and malformed responses, but also network and authentication
errors — is converted to `none` by the broad `except Exception: return None`
handlers of `get_stored_schema_by_hash` and `get_stored_schema`; nothing
propagates from this path. -/
theorem schema_lookup_all_failures_yield_none :
    ∀ (st : QStore) (h n : String) (k : GwError),
    st.scrollError = some k →
    get_stored_schema_by_hash st h = none ∧ get_stored_schema st n = none := by
  intro st h n k hk
  constructor
  · unfold get_stored_schema_by_hash
    rw [hk]
  · unfold get_stored_schema
    rw [hk]

/-- Witness for C6's amended theorem: an authentication failure yields `none`
from both lookups. -/
theorem schema_lookup_failures_witness :
    get_stored_schema_by_hash storeAuthFault "h" = none
    ∧ get_stored_schema storeAuthFault "s" = none :=
  schema_lookup_all_failures_yield_none storeAuthFault "h" "s" .auth rfl

/-- Counterexample to C6 as stated: a network failure is converted to `none`
rather than propagated, even though a matching version record exists in the
store. -/
theorem schema_lookup_network_error_counterexample :
    get_stored_schema_by_hash storeNetworkFault "h" = none
    ∧ storeNetworkFault.scrollError = some GwError.network
    ∧ ∃ r ∈ storeNetworkFault.versionPoints,
        lookupKey "version_hash" r.payload = some (.str "h") := by
  refine ⟨rfl, rfl, ?_⟩
  decide

theorem mem_insertById (p q : PointRecord) (l : List PointRecord) :
    p ∈ insertById q l ↔ p = q ∨ p ∈ l := by
  induction l with
  | nil => simp [insertById]
  | cons r rs ih =>
    unfold insertById
    by_cases hle : q.id ≤ r.id
    · rw [if_pos hle]
      simp [List.mem_cons]
    · rw [if_neg hle]
      simp only [List.mem_cons, ih]
      tauto

theorem mem_sortById (p : PointRecord) (l : List PointRecord) :
    p ∈ sortById l ↔ p ∈ l := by
  induction l with
  | nil => simp [sortById]
  | cons r rs ih =>
    show p ∈ insertById r (sortById rs) ↔ _
    rw [mem_insertById, ih]
    simp [List.mem_cons]

theorem filteredTake_nil_iff (pts : List PointRecord) (f : PointRecord → Bool) :
    (((sortById pts).filter (fun p => f p && matchesOffset none p)).take 1 = []) ↔
      ∀ p ∈ pts, f p = false := by
  have hsimp : (sortById pts).filter (fun p => f p && matchesOffset none p)
      = (sortById pts).filter f := by
    apply List.filter_congr
    intro p _
    simp [matchesOffset]
  rw [hsimp]
  cases hf : (sortById pts).filter f with
  | nil =>
    simp only [List.take_nil, true_iff]
    intro p hp
    have := List.filter_eq_nil_iff.mp hf p ((mem_sortById p pts).mpr hp)
    simpa using this
  | cons a l =>
    simp only [List.take_succ_cons, List.take_zero]
    constructor
    · intro habs
      exact absurd habs (by simp)
    · intro hall
      have ha : a ∈ (sortById pts).filter f := by
        rw [hf]; exact List.mem_cons_self a l
      have hsp := List.mem_filter.mp ha
      have hmem := (mem_sortById a pts).mp hsp.1
      rw [hall a hmem] at hsp
      exact absurd hsp.2 (by simp)

theorem get_by_hash_of_not_found (st : QStore) (h : String) (he : st.scrollError = none)
    (hall : ∀ r ∈ st.versionPoints, ¬ lookupKey "version_hash" r.payload = some (.str h)) :
    get_stored_schema_by_hash st h = none := by
  unfold get_stored_schema_by_hash scrollPage
  rw [he]
  dsimp only
  rw [filteredTake_nil_iff st.versionPoints
    (fun p => decide (lookupKey "version_hash" p.payload = some (.str h))) |>.mpr
    (fun r hr => by simpa using hall r hr)]

theorem get_by_hash_of_found (st : QStore) (h : String) (he : st.scrollError = none)
    (hex : ∃ r ∈ st.versionPoints, lookupKey "version_hash" r.payload = some (.str h)) :
    ∃ payload, get_stored_schema_by_hash st h = some payload := by
  unfold get_stored_schema_by_hash scrollPage
  rw [he]
  dsimp only
  cases htake : ((sortById st.versionPoints).filter
      (fun p => decide (lookupKey "version_hash" p.payload = some (.str h))
        && matchesOffset none p)).take 1 with
  | nil =>
    obtain ⟨r, hr, hl⟩ := hex
    have := (filteredTake_nil_iff st.versionPoints
      (fun p => decide (lookupKey "version_hash" p.payload = some (.str h)))).mp htake r hr
    rw [hl] at this
    exact absurd this (by simp)
  | cons a l =>
    exact ⟨a.payload, rfl⟩

theorem createMissingCollections_spec (cfg : QdrantConfig) :
    ∀ (ts : List String) (st : QStore),
    (ts.map (make_qualified_collection_name cfg)).Nodup →
    (createMissingCollections cfg ts st).2
      = (ts.map (make_qualified_collection_name cfg)).filter (fun q => !collection_exists st q)
    ∧ (createMissingCollections cfg ts st).1.versionPoints = st.versionPoints := by
  intro ts
  induction ts with
  | nil =>
    intro st _
    exact ⟨rfl, rfl⟩
  | cons t ts ih =>
    intro st hnd
    rw [List.map_cons, List.nodup_cons] at hnd
    obtain ⟨hq, hnd'⟩ := hnd
    unfold createMissingCollections
    dsimp only
    cases hex : collection_exists st (make_qualified_collection_name cfg t) with
    | true =>
      rw [if_pos rfl]
      obtain ⟨h2, h1⟩ := ih st hnd'
      refine ⟨?_, h1⟩
      rw [List.map_cons, List.filter_cons, hex]
      simpa using h2
    | false =>
      rw [if_neg (by simp)]
      obtain ⟨h2, h1⟩ := ih
        { st with collections := st.collections ++ [make_qualified_collection_name cfg t] } hnd'
      have hcongr : (ts.map (make_qualified_collection_name cfg)).filter
            (fun q => !collection_exists
              { st with collections := st.collections ++ [make_qualified_collection_name cfg t] } q)
          = (ts.map (make_qualified_collection_name cfg)).filter
            (fun q => !collection_exists st q) := by
        apply List.filter_congr
        intro x hx
        have hxq : ¬ x = make_qualified_collection_name cfg t := by
          intro hcontra
          exact hq (hcontra ▸ hx)
        simp [collection_exists, List.mem_append, hxq]
      constructor
      · dsimp only
        rw [h2, hcongr, List.map_cons, List.filter_cons, hex]
        rfl
      · dsimp only
        exact h1.trans rfl

/-- C3: `update_stored_schema` looks the stored version record up by exact
`version_hash` match; when a matching record exists it performs zero
collection creations and zero version-record writes; otherwise it creates
exactly the in-scope tables (all schema tables when `only_tables` is
unspecified) whose qualified collections do not exist, and appends exactly one
new schema-version record regardless of whether anything was created. -/
theorem update_stored_schema_spec :
    ∀ (s : SchemaObj) (cfg : QdrantConfig) (ts : String) (now : Int) (st : QStore)
      (only_tables : Option (List String)),
    st.scrollError = none →
    ((∃ r ∈ st.versionPoints,
        lookupKey "version_hash" r.payload = some (.str s.stored_version_hash)) →
      update_stored_schema s cfg ts now st only_tables = (st, []))
    ∧ (((only_tables.getD s.tables).map (make_qualified_collection_name cfg)).Nodup →
      (¬ ∃ r ∈ st.versionPoints,
          lookupKey "version_hash" r.payload = some (.str s.stored_version_hash)) →
      (update_stored_schema s cfg ts now st only_tables).2
        = ((only_tables.getD s.tables).map (make_qualified_collection_name cfg)).filter
            (fun q => !collection_exists st q)
      ∧ (update_stored_schema s cfg ts now st only_tables).1.versionPoints
        = st.versionPoints ++ [⟨pointIdOf now, versionPayload s ts⟩]) := by
  intro s cfg ts now st only_tables he
  constructor
  · intro hex
    obtain ⟨payload, hp⟩ := get_by_hash_of_found st s.stored_version_hash he hex
    unfold update_stored_schema
    rw [hp]
  · intro hnd hnotex
    have hn := get_by_hash_of_not_found st s.stored_version_hash he
      (fun r hr hc => hnotex ⟨r, hr, hc⟩)
    unfold update_stored_schema
    rw [hn]
    unfold execute_schema_update
    obtain ⟨h2, h1⟩ := createMissingCollections_spec cfg (only_tables.getD s.tables) st hnd
    refine ⟨h2, ?_⟩
    dsimp only
    unfold update_schema_in_storage
    dsimp only
    rw [h1]

/-- Witness for C3's found case: synchronizing `schemaEx` against a store
already holding a version record with its hash is a complete no-op. -/
theorem update_stored_schema_witness :
    update_stored_schema schemaEx cfgEx "t0" 0 storeWithHash none = (storeWithHash, []) :=
  (update_stored_schema_spec schemaEx cfgEx "t0" 0 storeWithHash none rfl).1 (by decide)

theorem truncateLoop_effects (cfg : QdrantConfig) :
    ∀ (ts : List String) (st : QStore),
    (∀ t1 ∈ ts, ∀ t2 ∈ ts,
        make_qualified_collection_name cfg (make_qualified_collection_name cfg t2)
          ≠ make_qualified_collection_name cfg t1) →
    (truncateLoop cfg ts st).2 = ts.flatMap (fun t =>
      if make_qualified_collection_name cfg (make_qualified_collection_name cfg t)
          ∈ st.collections then []
      else [StorageEffect.deleteCollection (make_qualified_collection_name cfg t),
            StorageEffect.createCollection (make_qualified_collection_name cfg t)]) := by
  intro ts
  induction ts with
  | nil =>
    intro st _
    rfl
  | cons t ts ih =>
    intro st hdisj
    have hdisj' : ∀ t1 ∈ ts, ∀ t2 ∈ ts,
        make_qualified_collection_name cfg (make_qualified_collection_name cfg t2)
          ≠ make_qualified_collection_name cfg t1 :=
      fun t1 h1 t2 h2 =>
        hdisj t1 (List.mem_cons_of_mem t h1) t2 (List.mem_cons_of_mem t h2)
    unfold truncateLoop
    dsimp only
    rw [List.flatMap_cons]
    cases hex : collection_exists st
        (make_qualified_collection_name cfg (make_qualified_collection_name cfg t)) with
    | true =>
      rw [if_pos rfl]
      have hmem : make_qualified_collection_name cfg (make_qualified_collection_name cfg t)
          ∈ st.collections := by
        simpa [collection_exists] using hex
      rw [if_pos hmem, List.nil_append]
      exact ih st hdisj'
    | false =>
      rw [if_neg (by simp)]
      have hmem : make_qualified_collection_name cfg (make_qualified_collection_name cfg t)
          ∉ st.collections := by
        simpa [collection_exists] using hex
      rw [if_neg hmem]
      dsimp only
      have hstep := ih { st with collections := st.collections.erase (make_qualified_collection_name cfg t) ++ [make_qualified_collection_name cfg t] } hdisj'
      rw [hstep]
      have hcongr : ∀ x ∈ ts,
          (if make_qualified_collection_name cfg (make_qualified_collection_name cfg x) ∈ ({ st with collections := st.collections.erase (make_qualified_collection_name cfg t) ++ [make_qualified_collection_name cfg t] } : QStore).collections then
            ([] : List StorageEffect)
          else [StorageEffect.deleteCollection (make_qualified_collection_name cfg x),
                StorageEffect.createCollection (make_qualified_collection_name cfg x)])
          = (if make_qualified_collection_name cfg (make_qualified_collection_name cfg x)
              ∈ st.collections then []
             else [StorageEffect.deleteCollection (make_qualified_collection_name cfg x),
                   StorageEffect.createCollection (make_qualified_collection_name cfg x)]) := by
        intro x hx
        have hne : make_qualified_collection_name cfg (make_qualified_collection_name cfg x)
            ≠ make_qualified_collection_name cfg t :=
          hdisj t (List.mem_cons_self t ts) x (List.mem_cons_of_mem t hx)
        dsimp only
        by_cases hm : make_qualified_collection_name cfg (make_qualified_collection_name cfg x)
            ∈ st.collections
        · have hmem1 : make_qualified_collection_name cfg (make_qualified_collection_name cfg x)
              ∈ st.collections.erase (make_qualified_collection_name cfg t)
                ++ [make_qualified_collection_name cfg t] :=
            List.mem_append_left _ ((List.mem_erase_of_ne hne).mpr hm)
          rw [if_pos hmem1, if_pos hm]
        · have hmem1 : make_qualified_collection_name cfg (make_qualified_collection_name cfg x)
              ∉ st.collections.erase (make_qualified_collection_name cfg t)
                ++ [make_qualified_collection_name cfg t] := by
            intro hc
            rcases List.mem_append.mp hc with h | h
            · exact hm (List.mem_of_mem_erase h)
            · exact hne (List.mem_singleton.mp h)
          rw [if_neg hmem1, if_neg hm]
      rw [List.flatMap_congr hcongr]
      rfl

/-- C10 (amended): with storage already initialized and a non-empty
`truncate_tables` list, the skip check is performed on the DOUBLY-qualified
name — the loop hands the already-qualified name to `_collection_exists`,
whose `qualify_table_name` parameter defaults to true, so it qualifies again.
A table is skipped untouched exactly when its doubly-qualified collection
exists; otherwise its qualified collection receives a delete call followed by
a create, even when that qualified collection exists — so with a non-empty
dataset name existing collections are deleted and recreated, not skipped.
(Stated under the assumption that no doubly-qualified name in the list equals
a singly-qualified one, which holds whenever no listed table name is itself a
qualified name.) -/
theorem init_storage_truncate_spec :
    ∀ (cfg : QdrantConfig) (st : QStore) (tts : List String),
    is_storage_initialized cfg st = true →
    (∀ t1 ∈ tts, ∀ t2 ∈ tts,
        make_qualified_collection_name cfg (make_qualified_collection_name cfg t2)
          ≠ make_qualified_collection_name cfg t1) →
    (init_storage cfg st tts).2 = tts.flatMap (fun t =>
        if make_qualified_collection_name cfg (make_qualified_collection_name cfg t)
            ∈ st.collections then []
        else [StorageEffect.deleteCollection (make_qualified_collection_name cfg t),
              StorageEffect.createCollection (make_qualified_collection_name cfg t)])
    ∧ ∀ t ∈ tts,
        (make_qualified_collection_name cfg (make_qualified_collection_name cfg t)
            ∈ st.collections →
          StorageEffect.deleteCollection (make_qualified_collection_name cfg t)
            ∉ (init_storage cfg st tts).2
          ∧ StorageEffect.createCollection (make_qualified_collection_name cfg t)
            ∉ (init_storage cfg st tts).2)
        ∧ (make_qualified_collection_name cfg (make_qualified_collection_name cfg t)
            ∉ st.collections →
          StorageEffect.deleteCollection (make_qualified_collection_name cfg t)
            ∈ (init_storage cfg st tts).2
          ∧ StorageEffect.createCollection (make_qualified_collection_name cfg t)
            ∈ (init_storage cfg st tts).2) := by
  intro cfg st tts hinit hdisj
  have heq : (init_storage cfg st tts).2 = tts.flatMap (fun t =>
      if make_qualified_collection_name cfg (make_qualified_collection_name cfg t)
          ∈ st.collections then []
      else [StorageEffect.deleteCollection (make_qualified_collection_name cfg t),
            StorageEffect.createCollection (make_qualified_collection_name cfg t)]) := by
    unfold init_storage
    rw [hinit, if_neg (by simp)]
    cases tts with
    | nil => rfl
    | cons a ts' =>
      rw [if_neg (by simp)]
      exact truncateLoop_effects cfg (a :: ts') st hdisj
  refine ⟨heq, ?_⟩
  intro t ht
  constructor
  · intro hmem
    constructor
    · intro hc
      rw [heq] at hc
      obtain ⟨x, hx, hfx⟩ := List.mem_flatMap.mp hc
      by_cases hqx : make_qualified_collection_name cfg
          (make_qualified_collection_name cfg x) ∈ st.collections
      · rw [if_pos hqx] at hfx
        exact absurd hfx (by simp)
      · rw [if_neg hqx] at hfx
        simp only [List.mem_cons, List.not_mem_nil, or_false,
          StorageEffect.deleteCollection.injEq] at hfx
        rcases hfx with hfx | hfx
        · exact hqx (congrArg (make_qualified_collection_name cfg) hfx ▸ hmem)
        · exact absurd hfx (by simp)
    · intro hc
      rw [heq] at hc
      obtain ⟨x, hx, hfx⟩ := List.mem_flatMap.mp hc
      by_cases hqx : make_qualified_collection_name cfg
          (make_qualified_collection_name cfg x) ∈ st.collections
      · rw [if_pos hqx] at hfx
        exact absurd hfx (by simp)
      · rw [if_neg hqx] at hfx
        simp only [List.mem_cons, List.not_mem_nil, or_false,
          StorageEffect.createCollection.injEq] at hfx
        rcases hfx with hfx | hfx
        · exact absurd hfx (by simp)
        · exact hqx (congrArg (make_qualified_collection_name cfg) hfx ▸ hmem)
  · intro hnmem
    constructor
    · rw [heq]
      refine List.mem_flatMap.mpr ⟨t, ht, ?_⟩
      rw [if_neg hnmem]
      simp
    · rw [heq]
      refine List.mem_flatMap.mpr ⟨t, ht, ?_⟩
      rw [if_neg hnmem]
      simp

/-- Counterexample to C10 as stated: on the initialized store with dataset name
`ds` that holds the qualified collection `ds_users`, truncating `users` does
not skip it — the code checks existence of the doubly-qualified `ds_ds_users`,
misses, and issues a delete and a create for the existing `ds_users`. -/
theorem init_storage_truncates_existing_counterexample :
    is_storage_initialized cfgEx storeInit = true
    ∧ make_qualified_collection_name cfgEx "users" ∈ storeInit.collections
    ∧ (init_storage cfgEx storeInit ["users"]).2
      = [StorageEffect.deleteCollection "ds_users",
         StorageEffect.createCollection "ds_users"] :=
  ⟨by decide, by decide, by decide⟩

/-- Witness for C10's amended theorem: the trace matches the doubly-qualified
closed form, and the existing `ds_users` collection (whose doubly-qualified
name is absent from the store) receives both the delete and the create call. -/
theorem init_storage_truncate_witness :
    (init_storage cfgEx storeInit ["users"]).2
      = ["users"].flatMap (fun t =>
          if make_qualified_collection_name cfgEx (make_qualified_collection_name cfgEx t)
              ∈ storeInit.collections then []
          else [StorageEffect.deleteCollection (make_qualified_collection_name cfgEx t),
                StorageEffect.createCollection (make_qualified_collection_name cfgEx t)])
    ∧ StorageEffect.deleteCollection (make_qualified_collection_name cfgEx "users")
        ∈ (init_storage cfgEx storeInit ["users"]).2
    ∧ StorageEffect.createCollection (make_qualified_collection_name cfgEx "users")
        ∈ (init_storage cfgEx storeInit ["users"]).2 :=
  ⟨(init_storage_truncate_spec cfgEx storeInit ["users"] (by decide) (by decide)).1,
   (((init_storage_truncate_spec cfgEx storeInit ["users"] (by decide) (by decide)).2
      "users" (by decide)).2 (by decide)).1,
   (((init_storage_truncate_spec cfgEx storeInit ["users"] (by decide) (by decide)).2
      "users" (by decide)).2 (by decide)).2⟩

theorem lookupSchema_saveSchemaTo (s : PSchema) (k : String) :
    ∀ (l : List (String × PSchema)),
    lookupSchema (saveSchemaTo l s) k =
      if k = s.name then (lookupSchema l k).map (fun _ => s) else lookupSchema l k := by
  intro l
  induction l with
  | nil =>
    by_cases hk : k = s.name <;> simp [saveSchemaTo, lookupSchema, hk]
  | cons kv rest ih =>
    obtain ⟨k', s'⟩ := kv
    show lookupSchema ((if k' = s.name then (s.name, s) else (k', s')) :: saveSchemaTo rest s) k = _
    by_cases h1 : k' = s.name
    · rw [if_pos h1]
      by_cases h2 : k = s.name
      · show (if s.name = k then some s else lookupSchema (saveSchemaTo rest s) k) = _
        rw [if_pos h2.symm, if_pos h2]
        show _ = (if k' = k then some s' else lookupSchema rest k).map (fun _ => s)
        rw [if_pos (h1.trans h2.symm)]
        rfl
      · show (if s.name = k then some s else lookupSchema (saveSchemaTo rest s) k) = _
        rw [if_neg (fun hc => h2 hc.symm), ih, if_neg h2, if_neg h2]
        show _ = (if k' = k then some s' else lookupSchema rest k)
        rw [if_neg (fun hc => h2 ((h1.symm.trans hc).symm))]
    · rw [if_neg h1]
      by_cases h2 : k' = k
      · show (if k' = k then some s' else _) = _
        rw [if_pos h2]
        have hk : ¬ k = s.name := fun hc => h1 (h2.trans hc)
        rw [if_neg hk]
        show _ = (if k' = k then some s' else lookupSchema rest k)
        rw [if_pos h2]
      · show (if k' = k then some s' else lookupSchema (saveSchemaTo rest s) k) = _
        rw [if_neg h2, ih]
        by_cases h3 : k = s.name
        · rw [if_pos h3, if_pos h3]
          show _ = (Option.map (fun _ => s) (if k' = k then some s' else lookupSchema rest k))
          rw [if_neg h2]
        · rw [if_neg h3, if_neg h3]
          show _ = (if k' = k then some s' else lookupSchema rest k)
          rw [if_neg h2]

theorem lookupSchema_mem :
    ∀ (l : List (String × PSchema)) (k : String) (s : PSchema),
    lookupSchema l k = some s → (k, s) ∈ l := by
  intro l
  induction l with
  | nil =>
    intro k s h
    exact absurd h (by simp [lookupSchema])
  | cons kv rest ih =>
    intro k s h
    obtain ⟨k', s'⟩ := kv
    show (k, s) ∈ (k', s') :: rest
    by_cases h1 : k' = k
    · have : some s' = some s := by
        rw [← h]
        show some s' = if k' = k then some s' else lookupSchema rest k
        rw [if_pos h1]
      have hs : s' = s := Option.some.inj this
      exact h1 ▸ hs ▸ List.mem_cons_self _ _
    · have hrest : lookupSchema rest k = some s := by
        rw [← h]
        show lookupSchema rest k = if k' = k then some s' else lookupSchema rest k
        rw [if_neg h1]
      exact List.mem_cons_of_mem _ (ih k s hrest)

/-- C2 (amended): a `DropCommand` built with empty resources, empty state paths,
`drop_all=false`, `state_only=false` has `is_empty = true`, and calling it
performs no drop work at all: it returns successfully right after the
unconditional `sync_destination` precondition step — the only step on its trace
— leaving the pipeline (schemas, state, pending packages) unchanged and never
reaching normalize or load, whatever the load outcome would have been. -/
theorem empty_drop_command_noop_after_sync :
    ∀ (p : Pipeline) (schema_name : Option String) (cmd : DropCommand),
    mkDropCommand p [] schema_name [] false false = some cmd →
    p.pending_packages = [] →
    cmd.is_empty = true
    ∧ ∀ loadErr, dropCommandCall cmd p loadErr = (.ok (), p, [CallEffect.syncDestination]) := by
  intro p schema_name cmd hmk hpend
  unfold mkDropCommand at hmk
  cases hd : p.default_schema_name with
  | none =>
    rw [hd] at hmk
    exact absurd hmk (by simp)
  | some dflt =>
    rw [hd] at hmk
    dsimp only at hmk
    cases hl : lookupSchema p.schemas (schema_name.getD dflt) with
    | none =>
      rw [hl] at hmk
      exact absurd hmk (by simp)
    | some schema0 =>
      rw [hl] at hmk
      dsimp only at hmk
      have hcmd := Option.some.inj hmk
      subst hcmd
      have hinfo : (drop_resources schema0 p.state [] [] false false).info
          = ⟨[], [], []⟩ := by
        simp [drop_resources]
      have hdropped : (drop_resources schema0 p.state [] [] false false).dropped_tables
          = [] := by
        simp [drop_resources]
      constructor
      · show ((drop_resources schema0 p.state [] [] false false).info.tables.isEmpty
          && _ && _) = true
        rw [hinfo]
        rfl
      · intro loadErr
        unfold dropCommandCall
        rw [if_neg (by simp [Pipeline.has_pending_data, hpend])]
        rw [if_pos]
        dsimp only
        rw [hdropped]
        rfl

/-- Counterexample to C2 as stated: the empty drop command on `pipelineEx` has
`is_empty = true`, yet its call trace is not free of destination calls — it
contains the unconditional destination synchronization step performed before
the no-op check. -/
theorem empty_drop_command_syncs_destination :
    mkDropCommand pipelineEx [] none [] false false = some emptyDropCmd
    ∧ emptyDropCmd.is_empty = true
    ∧ (dropCommandCall emptyDropCmd pipelineEx none).2.2 = [CallEffect.syncDestination]
    ∧ (dropCommandCall emptyDropCmd pipelineEx none).2.2.any CallEffect.touchesDestination
      = true := by
  refine ⟨?_, ?_, ?_, ?_⟩ <;> decide

/-- Witness for C2's amended theorem at the concrete `pipelineEx`. -/
theorem empty_drop_command_noop_witness :
    emptyDropCmd.is_empty = true
    ∧ dropCommandCall emptyDropCmd pipelineEx none
      = (.ok (), pipelineEx, [CallEffect.syncDestination]) :=
  ⟨(empty_drop_command_noop_after_sync pipelineEx none emptyDropCmd (by decide) rfl).1,
   (empty_drop_command_noop_after_sync pipelineEx none emptyDropCmd (by decide) rfl).2 none⟩

/-- C8: when the load run inside `DropCommand.__call__` fails, the command
re-raises the same failure after discarding all pending packages, forcing a
fresh state-extraction marker, and restoring the saved pre-drop schema to the
pipeline's schema storage — so the pipeline ends with its pre-drop schema and a
second invocation with the same arguments recomputes exactly the same command. -/
theorem drop_command_failure_recovery :
    ∀ (p : Pipeline) (resources : List String) (schema_name : Option String)
      (state_paths : List String) (drop_all state_only : Bool) (cmd : DropCommand) (e : Nat),
    (∀ kv ∈ p.schemas, kv.2.name = kv.1) →
    mkDropCommand p resources schema_name state_paths drop_all state_only = some cmd →
    p.pending_packages = [] →
    (cmd.drop_state || cmd.drop_tables) = true →
    (dropCommandCall cmd p (some e)).1 = .error (.loadFailed e)
    ∧ (dropCommandCall cmd p (some e)).2.1.pending_packages = []
    ∧ (dropCommandCall cmd p (some e)).2.1.state_extract_forced = true
    ∧ lookupSchema (dropCommandCall cmd p (some e)).2.1.schemas cmd.schema.name
      = some cmd.schema
    ∧ mkDropCommand (dropCommandCall cmd p (some e)).2.1 resources schema_name state_paths
        drop_all state_only = some cmd
    ∧ (dropCommandCall cmd p (some e)).2.2
      = [CallEffect.syncDestination, CallEffect.saveAndExtractStateAndSchema,
         CallEffect.normalize, CallEffect.load, CallEffect.dropPendingPackages,
         CallEffect.forceStateExtract, CallEffect.saveSchema cmd.schema] := by
  intro p resources schema_name state_paths drop_all state_only cmd e hwf hmk hpend hnon
  unfold mkDropCommand at hmk
  cases hd : p.default_schema_name with
  | none =>
    rw [hd] at hmk
    exact absurd hmk (by simp)
  | some dflt =>
    rw [hd] at hmk
    dsimp only at hmk
    cases hl : lookupSchema p.schemas (schema_name.getD dflt) with
    | none =>
      rw [hl] at hmk
      exact absurd hmk (by simp)
    | some schema0 =>
      rw [hl] at hmk
      dsimp only at hmk
      have hcmd := Option.some.inj hmk
      subst hcmd
      have hname : schema0.name = schema_name.getD dflt :=
        hwf (schema_name.getD dflt, schema0) (lookupSchema_mem p.schemas _ schema0 hl)
      have hcond : ¬ ((!(drop_all || !resources.isEmpty || !state_paths.isEmpty)
          && !(!state_only && !(drop_resources schema0 p.state resources state_paths
              drop_all state_only).dropped_tables.isEmpty)) = true) := by
        revert hnon
        dsimp only
        cases drop_all || !resources.isEmpty || !state_paths.isEmpty <;>
          cases !state_only && !(drop_resources schema0 p.state resources state_paths
            drop_all state_only).dropped_tables.isEmpty <;> simp
      unfold dropCommandCall
      rw [if_neg (by simp [Pipeline.has_pending_data, hpend])]
      rw [if_neg hcond]
      dsimp only
      refine ⟨rfl, rfl, rfl, ?_, ?_, rfl⟩
      · rw [lookupSchema_saveSchemaTo, if_pos rfl, lookupSchema_saveSchemaTo]
        have hn1 : ((drop_resources schema0 p.state resources state_paths drop_all
            state_only).schema).name = schema0.name := rfl
        rw [hn1, if_pos rfl, hname, hl]
        rfl
      · unfold mkDropCommand
        rw [hd]
        dsimp only
        rw [lookupSchema_saveSchemaTo, ← hname, if_pos rfl, lookupSchema_saveSchemaTo]
        have hn1 : ((drop_resources schema0 p.state resources state_paths drop_all
            state_only).schema).name = schema0.name := rfl
        rw [hn1, if_pos rfl, hname, hl]
        rfl

/-- Witness for C8 on `pipelineW` with `resources=["users"]` and load failure
code 7. -/
theorem drop_command_failure_recovery_witness :
    (dropCommandCall dropCmdW pipelineW (some 7)).1 = .error (.loadFailed 7)
    ∧ (dropCommandCall dropCmdW pipelineW (some 7)).2.1.pending_packages = []
    ∧ (dropCommandCall dropCmdW pipelineW (some 7)).2.1.state_extract_forced = true
    ∧ lookupSchema (dropCommandCall dropCmdW pipelineW (some 7)).2.1.schemas
        dropCmdW.schema.name = some dropCmdW.schema
    ∧ mkDropCommand (dropCommandCall dropCmdW pipelineW (some 7)).2.1 ["users"] none []
        false false = some dropCmdW
    ∧ (dropCommandCall dropCmdW pipelineW (some 7)).2.2
      = [CallEffect.syncDestination, CallEffect.saveAndExtractStateAndSchema,
         CallEffect.normalize, CallEffect.load, CallEffect.dropPendingPackages,
         CallEffect.forceStateExtract, CallEffect.saveSchema dropCmdW.schema] :=
  drop_command_failure_recovery pipelineW ["users"] none [] false false dropCmdW 7
    (by decide) (by decide) rfl (by decide)

end Dlt
